import Mathlib

/-!
Shallow embedding of the jetfighter ingestion and processing pipeline
(src/webapp.py): the intake handler `parse_tweet`, the worker pipeline
`process_paper`, and the record store driven by field-level merges.

Conventions of the embedding:
- Python exceptions are values of `Except String`.
- The record store is a function from paper id to an optional record;
  SQLAlchemy session.merge followed by commit is `sessionMerge`, which
  copies exactly the attributes that are set on the source object
  (attributes never assigned on the source leave the stored column
  untouched, matching ColumnProperty.merge for a transient source).
- Timestamps are natural numbers; the opaque diagnostic payload of the
  analyzer is a list of page numbers; external collaborators
  (download_paper, detect_rainbow_from_file, find_authors) are oracle
  functions bundled in `Collab`, per the interface boundary of the spec.
-/

namespace Jetfighter

/-- Opaque diagnostic payload returned by the analyzer. -/
abbrev ParseData := List Nat

/-- Author contact structure. Modelled from the spec: the author-lookup
collaborator returns a record with corresponding-author emails and the
emails of the whole author list (models.py is not under src). -/
structure AuthorContact where
  corr : List String
  all : List String
deriving DecidableEq, Repr

/-- A stored row of the paper table. Modelled from the spec, section 3:
the Biorxiv model itself (models.py) is not under src; columns other
than the primary key are nullable and unset until written. -/
structure PaperRecord where
  id : String
  created : Nat
  title : String
  parse_status : Option Bool
  parse_data : Option ParseData
  author_contact : Option AuthorContact
deriving DecidableEq, Repr

/-- An in-memory model object, as passed to session.merge and over the
job queue. A field holds `some v` when the corresponding attribute is
set on the object (present in its attribute dictionary) and `none` when
the attribute was never assigned. The program never assigns a null
value explicitly, so the two readings of `none` coincide. `id`,
`created` and `title` are always set by the constructor call in
`parse_tweet`. -/
structure ObjDict where
  id : String
  created : Nat
  title : String
  parse_status : Option Bool
  parse_data : Option ParseData
  author_contact : Option AuthorContact
deriving DecidableEq, Repr

/-- The durable paper table, keyed by paper id. -/
abbrev Store := String → Option PaperRecord

/-- SQLAlchemy merge of one object onto an existing row: attributes set
on the source overwrite the column, attributes never set on the source
leave the column as it was. -/
def mergeRecord (old : PaperRecord) (o : ObjDict) : PaperRecord :=
  { id := o.id
    created := o.created
    title := o.title
    parse_status := match o.parse_status with
      | some b => some b
      | none => old.parse_status
    parse_data := match o.parse_data with
      | some d => some d
      | none => old.parse_data
    author_contact := match o.author_contact with
      | some a => some a
      | none => old.author_contact }

/-- Row created by merging an object whose id has no existing row:
unset attributes become null columns. -/
def newRecord (o : ObjDict) : PaperRecord :=
  ⟨o.id, o.created, o.title, o.parse_status, o.parse_data, o.author_contact⟩

/-- db.session.merge(obj) followed by db.session.commit(): field-level
upsert keyed by the primary key of the merged object. -/
def sessionMerge (store : Store) (o : ObjDict) : Store :=
  fun k =>
    if k = o.id then
      some (match store o.id with
        | some old => mergeRecord old o
        | none => newRecord o)
    else store k

/-- An announcement event from the external stream. `urls` models
t.entities: `none` when the entities structure is missing or malformed,
`some l` when a url list is present; an element is `none` when that url
entry has no expanded_url field. -/
structure Tweet where
  id_str : String
  created_at : Nat
  full_text : String
  urls : Option (List (Option String))
deriving DecidableEq, Repr

/-- t.entities with its first expanded url, `none` on every path where
the Python attribute and index accesses raise. -/
def extractUrl (t : Tweet) : Option String :=
  match t.urls with
  | some (some u :: _) => some u
  | _ => none

/-- The characters matched by the regex class backslash-s in a Python 3
str pattern: the characters whose Unicode whitespace predicate holds
(tab through carriage return, the four information separators, space,
next line, no-break space, ogham space mark, the en-quad through hair
space block, line and paragraph separators, narrow no-break space,
medium mathematical space, ideographic space). -/
def pySpace (c : Char) : Bool :=
  c = ' ' || c = '\t' || c = '\n' || c = '\x0B' || c = '\x0C' || c = '\r' ||
  c = '\x1C' || c = '\x1D' || c = '\x1E' || c = '\x1F' ||
  c = '\x85' || c = '\u00A0' || c = '\u1680' ||
  (0x2000 ≤ c.toNat && c.toNat ≤ 0x200A) ||
  c = '\u2028' || c = '\u2029' || c = '\u202F' || c = '\u205F' || c = '\u3000'

/-- Whether the text starts with a whitespace character immediately
followed by the literal "http": the token ending a title match. -/
def isTokenAt : List Char → Bool
  | c :: 'h' :: 't' :: 't' :: 'p' :: _ => pySpace c
  | _ => false

/-- One attempt of the lazy pattern at a fixed starting position: grow
the dot-star lazily, succeeding at the first token position, failing if
a newline is reached first (the dot does not match newline). `acc`
holds the consumed characters in reverse. -/
def matchAt (acc : List Char) : List Char → Option String
  | [] => none
  | c :: rest =>
    if isTokenAt (c :: rest) then some (String.mk acc.reverse)
    else if c = '\n' then none
    else matchAt (c :: acc) rest

/-- First match of the Python pattern over the whole text: starting
positions are tried left to right, as re.findall does. -/
def firstMatch : List Char → Option String
  | [] => none
  | c :: rest =>
    match matchAt [] (c :: rest) with
    | some t => some t
    | none => firstMatch rest

/-- re.sub of the class of non-ASCII characters by the empty string. -/
def stripNonAscii (s : String) : String :=
  String.mk (s.data.filter (fun c => c.toNat ≤ 0x7f))

/-- Title extraction of parse_tweet: first match of the lazy
title-before-url pattern, with the ASCII-stripped full text as the
fallback when the pattern raises an IndexError (no match). -/
def extractTitle (s : String) : String :=
  match firstMatch s.data with
  | some t => t
  | none => stripNonAscii s

/-- Trailing segment after the last slash, accumulating the current
segment in reverse. -/
def lastSegment (cur : List Char) : List Char → List Char
  | [] => cur.reverse
  | c :: rest =>
    if c = '/' then lastSegment [] rest
    else lastSegment (c :: cur) rest

/-- os.path.basename: the part of the path after its last slash. -/
def basename (s : String) : String :=
  String.mk (lastSegment [] s.data)

/-- The object constructed by parse_tweet for a parsed event: only id,
created and title are assigned. -/
def intakeObj (t : Tweet) (code : String) : ObjDict :=
  ⟨code, t.created_at, extractTitle t.full_text, none, none, none⟩

/-- parse_tweet: extract code and title from the event, upsert the
record, enqueue one processing job carrying the constructed object.
Returns the store after the upsert and the list of enqueued jobs; an
event whose url extraction raises is logged and dropped. -/
def parse_tweet (t : Tweet) (store : Store) : Store × List ObjDict :=
  match extractUrl t with
  | none => (store, [])
  | some url =>
    let o := intakeObj t (basename url)
    (sessionMerge store o, [o])

/-- The external collaborators of the worker, per the interface
boundary of the spec: download_paper(id, outdir) yields a file name,
detect_rainbow_from_file yields the status flag and the diagnostic
payload, find_authors yields the contact structure. `commitFail` is the
persistence oracle: `some e` when the database commit raises `e`. -/
structure Collab where
  download_paper : String → Nat → Except String String
  detect_rainbow_from_file : String → Except String (Bool × ParseData)
  find_authors : String → Except String AuthorContact
  commitFail : Option String

/-- Temporary-directory bookkeeping of a worker: how many scoped
directories were created and how many were removed. -/
structure Resources where
  allocated : Nat
  released : Nat
deriving DecidableEq, Repr

/-- tempfile.TemporaryDirectory used as a context manager: a fresh
directory (numbered by the allocation counter) is created, the body
runs, and the directory is removed whether the body returned or
raised — the raise is then re-raised to the caller. -/
def withTempDirectory {α : Type} (res : Resources) (body : Nat → Except String α) :
    Except String α × Resources :=
  let td := res.allocated
  let r := body td
  (r, ⟨res.allocated + 1, res.released + 1⟩)

/-- The conditional enrichment step of process_paper: when the freshly
assigned parse_status attribute is truthy, look up the authors and
assign author_contact; a lookup error propagates. -/
def enrich (c : Collab) (o1 : ObjDict) : Except String ObjDict :=
  if o1.parse_status = some true then
    match c.find_authors o1.id with
    | Except.error e => Except.error e
    | Except.ok ac => Except.ok { o1 with author_contact := some ac }
  else Except.ok o1

/-- Body of the with-block of process_paper: download into the scoped
directory, analyze, conditionally enrich, then merge and commit the
mutated object. Returns the store as left by the commit; any raised
error propagates and the store is not changed (the merge only stages,
the commit persists). -/
def pipelineBody (c : Collab) (o : ObjDict) (store : Store) (td : Nat) :
    Except String Store :=
  match c.download_paper o.id td with
  | Except.error e => Except.error e
  | Except.ok fn =>
    match c.detect_rainbow_from_file fn with
    | Except.error e => Except.error e
    | Except.ok sd =>
      match enrich c { o with parse_status := some sd.1, parse_data := some sd.2 } with
      | Except.error e => Except.error e
      | Except.ok o2 =>
        match c.commitFail with
        | some e => Except.error e
        | none => Except.ok (sessionMerge store o2)

/-- process_paper: the worker pipeline on a dequeued job payload.
Yields the job outcome (ok, or the propagated error), the store as
visible after the run, and the temporary-directory counters. -/
def process_paper (c : Collab) (o : ObjDict) (store : Store) (res : Resources) :
    Except String Unit × Store × Resources :=
  let (r, res1) := withTempDirectory res (fun td => pipelineBody c o store td)
  match r with
  | Except.ok store1 => (Except.ok (), store1, res1)
  | Except.error e => (Except.error e, store, res1)

/-- The mutated job object as it stands right before the final merge,
when every step before the commit succeeded. -/
def finalObj (c : Collab) (o : ObjDict) (td : Nat) : Except String ObjDict :=
  match c.download_paper o.id td with
  | Except.error e => Except.error e
  | Except.ok fn =>
    match c.detect_rainbow_from_file fn with
    | Except.error e => Except.error e
    | Except.ok sd =>
      enrich c { o with parse_status := some sd.1, parse_data := some sd.2 }

/-- The analyzer verdict reachable for a paper id with a given scoped
directory: the flag produced by downloading and analyzing, `none` when
either step fails. -/
def analysisOf (c : Collab) (k : String) (td : Nat) : Option Bool :=
  match c.download_paper k td with
  | Except.error _ => none
  | Except.ok fn =>
    match c.detect_rainbow_from_file fn with
    | Except.error _ => none
    | Except.ok sd => some sd.1

/-- The download collaborator does not depend on which scoped directory
it is given (its result stands for the downloaded content, which is a
function of the paper id alone). -/
def DlIndep (c : Collab) : Prop :=
  ∀ k t1 t2, c.download_paper k t1 = c.download_paper k t2

def tweetW1 : Tweet := ⟨"1", 5, "T http://a/b", some [some "http://a/b"]⟩

def storeW1 : Store := fun k =>
  if k = "b" then
    some ⟨"b", 1, "Old", some true, some [2], some ⟨["c@d"], ["c@d", "e@f"]⟩⟩
  else none

def recW1 : PaperRecord := ⟨"b", 1, "Old", some true, some [2], some ⟨["c@d"], ["c@d", "e@f"]⟩⟩

def tweet5 : Tweet :=
  ⟨"886577560318898177", 0, "Some Title http://biorxiv.org/content/172627v1",
    some [some "http://biorxiv.org/content/172627v1"]⟩

def emptyStore : Store := fun _ => none

def objW5 : ObjDict := ⟨"172627v1", 0, "Some Title", none, none, none⟩

def tweetW6 : Tweet := ⟨"2", 7, "body with no links", some []⟩

def tweetW10 : Tweet := ⟨"3", 9, "odd entity shape http://x", some [none, some "http://x"]⟩

/-- Split of a text at its first whitespace-http token: the characters
before the token and the text from the token on, `none` when no token
occurs. -/
def firstTokenSplit : List Char → Option (List Char × List Char)
  | [] => none
  | c :: rest =>
    if isTokenAt (c :: rest) then some ([], c :: rest)
    else
      match firstTokenSplit rest with
      | none => none
      | some (p, s) => some (c :: p, s)

/-- The title as the claim words it: all the text of the body that
precedes the first occurrence of the url-prefix token. Written from the
words of the spec, for comparison with extractTitle. -/
def specTitleOf (s : String) : Option String :=
  match firstTokenSplit s.data with
  | none => none
  | some (p, _) => some (String.mk p)

def collabW4 : Collab :=
  ⟨fun _ _ => Except.ok "paper.pdf", fun _ => Except.ok (true, [2, 5]),
   fun _ => Except.ok ⟨["a@b"], ["a@b", "c@d"]⟩, none⟩

def objW4 : ObjDict := ⟨"w4", 3, "W4 title", none, none, none⟩

def collabW2 : Collab :=
  ⟨fun _ _ => Except.ok "paper.pdf", fun _ => Except.ok (false, []),
   fun _ => Except.ok ⟨[], []⟩, none⟩

def objW2 : ObjDict := ⟨"p", 1, "A", none, none, none⟩

def storeW2 : Store := fun k =>
  if k = "p" then some ⟨"p", 2, "B", none, none, none⟩ else none

def collabW8 : Collab :=
  ⟨fun _ _ => Except.ok "paper.pdf", fun _ => Except.ok (true, [4]),
   fun _ => Except.error "author page unparsable", none⟩

def objW8 : ObjDict := ⟨"w8", 11, "W8 title", none, none, none⟩

/-- Global state of the pipeline: the record store, the multiset of
deliverable jobs (at-least-once: delivery does not retire a job), and
the temporary-directory counters of the worker pool. -/
structure SysState where
  store : Store
  jobs : List ObjDict
  res : Resources

/-- Empty table, empty queue. -/
def initState : SysState := ⟨fun _ => none, [], ⟨0, 0⟩⟩

/-- One transition of the system: the intake of one event (the listener
or the backfill poller invoking parse_tweet), or one delivery of an
enqueued job to a worker. -/
inductive Step (c : Collab) : SysState → SysState → Prop
  | intake (t : Tweet) (s : SysState) :
      Step c s ⟨(parse_tweet t s.store).1, s.jobs ++ (parse_tweet t s.store).2, s.res⟩
  | process (o : ObjDict) (s : SysState) (hmem : o ∈ s.jobs) :
      Step c s ⟨(process_paper c o s.store s.res).2.1, s.jobs,
                (process_paper c o s.store s.res).2.2⟩

/-- States the system can be in, starting from the empty state. -/
def Reachable (c : Collab) (s : SysState) : Prop :=
  Relation.ReflTransGen (Step c) initState s

/-- Per-record invariant: author contact present exactly on flagged
records, and any recorded verdict agrees with the analyzer verdict for
that paper. -/
def RecordInv (c : Collab) (k : String) (rec : PaperRecord) : Prop :=
  (rec.author_contact.isSome ↔ rec.parse_status = some true) ∧
  ∀ b, rec.parse_status = some b → analysisOf c k 0 = some b

def StoreInv (c : Collab) (st : Store) : Prop :=
  ∀ k rec, st k = some rec → RecordInv c k rec

/-- Shape of every job payload parse_tweet enqueues: only id, created
and title are set. -/
def IntakeShaped (o : ObjDict) : Prop :=
  o.parse_status = none ∧ o.parse_data = none ∧ o.author_contact = none

def SysInv (c : Collab) (s : SysState) : Prop :=
  StoreInv c s.store ∧ ∀ o ∈ s.jobs, IntakeShaped o

def collabW3 : Collab :=
  ⟨fun _ _ => Except.ok "f.pdf", fun _ => Except.ok (true, [3]),
   fun _ => Except.ok ⟨["t.ellis@imperial.ac.uk"],
     ["o.borkowski@imperial.ac.uk", "t.ellis@imperial.ac.uk"]⟩, none⟩

def stateW3a : SysState :=
  ⟨(parse_tweet tweet5 initState.store).1,
   initState.jobs ++ (parse_tweet tweet5 initState.store).2, initState.res⟩

def stateW3b : SysState :=
  ⟨(process_paper collabW3 objW5 stateW3a.store stateW3a.res).2.1, stateW3a.jobs,
   (process_paper collabW3 objW5 stateW3a.store stateW3a.res).2.2⟩

def recW3 : PaperRecord :=
  ⟨"172627v1", 0, "Some Title", some true, some [3],
   some ⟨["t.ellis@imperial.ac.uk"],
     ["o.borkowski@imperial.ac.uk", "t.ellis@imperial.ac.uk"]⟩⟩

theorem pipelineBody_eq (c : Collab) (o : ObjDict) (store : Store) (td : Nat) :
    pipelineBody c o store td =
      match finalObj c o td with
      | Except.error e => Except.error e
      | Except.ok o2 =>
        match c.commitFail with
        | some e => Except.error e
        | none => Except.ok (sessionMerge store o2) := by
  unfold pipelineBody finalObj
  cases c.download_paper o.id td with
  | error e => rfl
  | ok fn =>
    simp only
    cases c.detect_rainbow_from_file fn with
    | error e => rfl
    | ok sd => simp only

theorem parse_tweet_discards (t : Tweet) (store : Store) (h : extractUrl t = none) :
    parse_tweet t store = (store, []) := by
  unfold parse_tweet
  rw [h]

theorem parse_tweet_ingests (t : Tweet) (store : Store) (url : String)
    (h : extractUrl t = some url) :
    parse_tweet t store =
      (sessionMerge store (intakeObj t (basename url)), [intakeObj t (basename url)]) := by
  unfold parse_tweet
  rw [h]

/-- Claim C1: re-ingesting an event for an already-existing paper id
overwrites only the id, created and title fields of the stored record
and leaves parse_status, parse_data and author_contact exactly as a
prior job left them. -/
theorem C1_intake_merge_preserves_processing_fields
    (t : Tweet) (store : Store) (url : String) (old : PaperRecord)
    (hu : extractUrl t = some url)
    (hold : store (basename url) = some old) :
    (parse_tweet t store).1 (basename url) =
      some { id := basename url, created := t.created_at,
             title := extractTitle t.full_text,
             parse_status := old.parse_status,
             parse_data := old.parse_data,
             author_contact := old.author_contact } := by
  rw [parse_tweet_ingests t store url hu]
  unfold sessionMerge intakeObj
  simp only [if_pos rfl]
  rw [hold]
  rfl

theorem C1_intake_merge_preserves_processing_fields_witness :
    extractUrl tweetW1 = some "http://a/b" ∧
    storeW1 (basename "http://a/b") = some recW1 ∧
    (parse_tweet tweetW1 storeW1).1 (basename "http://a/b") =
      some { id := basename "http://a/b", created := tweetW1.created_at,
             title := extractTitle tweetW1.full_text,
             parse_status := recW1.parse_status,
             parse_data := recW1.parse_data,
             author_contact := recW1.author_contact } :=
  ⟨by decide, by decide,
    C1_intake_merge_preserves_processing_fields tweetW1 storeW1 "http://a/b" recW1
      (by decide) (by decide)⟩

/-- Claim C5: on the concrete event whose first embedded url is the
biorxiv content url and whose body is the title followed by that url,
parse_tweet stores a record with id 172627v1 and title Some Title, and
enqueues exactly one job carrying that record. -/
theorem C5_end_to_end_intake :
    (parse_tweet tweet5 emptyStore).2 = [objW5] ∧
    (parse_tweet tweet5 emptyStore).1 "172627v1" =
      some ⟨"172627v1", 0, "Some Title", none, none, none⟩ := by
  constructor
  · decide
  · decide

/-- Claim C6: an event whose url list is empty produces no record, no
enqueued job, and no raised error: parse_tweet returns with the store
unchanged and nothing enqueued. -/
theorem C6_no_url_discarded (t : Tweet) (store : Store) (h : t.urls = some []) :
    parse_tweet t store = (store, []) := by
  apply parse_tweet_discards
  unfold extractUrl
  rw [h]

theorem C6_no_url_discarded_witness :
    tweetW6.urls = some [] ∧ parse_tweet tweetW6 emptyStore = (emptyStore, []) :=
  ⟨rfl, C6_no_url_discarded tweetW6 emptyStore rfl⟩

/-- Claim C10: parse_tweet discards the event, with the store unchanged
and nothing enqueued, on every path where extracting the first embedded
url raises: the entities structure missing or malformed, the url list
empty, or the first url entry lacking an expanded url. Totality over
these inputs is by construction of the embedding. -/
theorem C10_malformed_url_discarded (t : Tweet) (store : Store)
    (h : extractUrl t = none) :
    parse_tweet t store = (store, []) :=
  parse_tweet_discards t store h

theorem C10_malformed_url_discarded_witness :
    extractUrl tweetW10 = none ∧ parse_tweet tweetW10 emptyStore = (emptyStore, []) :=
  ⟨rfl, C10_malformed_url_discarded tweetW10 emptyStore rfl⟩

theorem firstTokenSplit_cons_none (c : Char) (rest : List Char)
    (h : firstTokenSplit (c :: rest) = none) :
    isTokenAt (c :: rest) = false ∧ firstTokenSplit rest = none := by
  unfold firstTokenSplit at h
  by_cases htok : isTokenAt (c :: rest) = true
  · rw [if_pos htok] at h
    exact absurd h (by simp)
  · rw [if_neg htok] at h
    refine ⟨by simpa using htok, ?_⟩
    cases hrest : firstTokenSplit rest with
    | none => rfl
    | some ps =>
      rw [hrest] at h
      exact absurd h (by simp)

theorem matchAt_none_of_noToken (cs : List Char) (h : firstTokenSplit cs = none) :
    ∀ acc, matchAt acc cs = none := by
  induction cs with
  | nil => intro acc; rfl
  | cons c rest ih =>
    intro acc
    obtain ⟨htok, hrest⟩ := firstTokenSplit_cons_none c rest h
    unfold matchAt
    rw [htok]
    simp only [Bool.false_eq_true, if_false]
    by_cases hc : c = '\n'
    · rw [if_pos hc]
    · rw [if_neg hc]
      exact ih hrest (c :: acc)

theorem firstMatch_none_of_noToken (cs : List Char) (h : firstTokenSplit cs = none) :
    firstMatch cs = none := by
  induction cs with
  | nil => rfl
  | cons c rest ih =>
    obtain ⟨htok, hrest⟩ := firstTokenSplit_cons_none c rest h
    unfold firstMatch
    rw [matchAt_none_of_noToken (c :: rest) h []]
    exact ih hrest

theorem matchAt_of_split (cs : List Char) (pre suf : List Char)
    (h : firstTokenSplit cs = some (pre, suf)) (hnl : '\n' ∉ pre) :
    ∀ acc, matchAt acc cs = some (String.mk (acc.reverse ++ pre)) := by
  induction cs generalizing pre with
  | nil => exact absurd h (by simp [firstTokenSplit])
  | cons c rest ih =>
    intro acc
    unfold firstTokenSplit at h
    by_cases htok : isTokenAt (c :: rest) = true
    · rw [if_pos htok] at h
      simp only [Option.some.injEq, Prod.mk.injEq] at h
      obtain ⟨hpre, _⟩ := h
      unfold matchAt
      rw [htok]
      simp [← hpre]
    · rw [if_neg htok] at h
      cases hrest : firstTokenSplit rest with
      | none =>
        rw [hrest] at h
        exact absurd h (by simp)
      | some ps =>
        rw [hrest] at h
        simp only [Option.some.injEq, Prod.mk.injEq] at h
        obtain ⟨hpre, hsuf⟩ := h
        have hc : c ≠ '\n' := by
          intro hceq
          exact hnl (by rw [← hpre]; exact hceq ▸ List.mem_cons_self c ps.1)
        have hnl2 : '\n' ∉ ps.1 := by
          intro hmem
          exact hnl (by rw [← hpre]; exact List.mem_cons_of_mem c hmem)
        unfold matchAt
        rw [eq_false_of_ne_true htok]
        simp only [Bool.false_eq_true, if_false]
        rw [if_neg hc]
        rw [ih ps.1 (by rw [hrest, ← hsuf]) hnl2 (c :: acc)]
        simp [← hpre]

/-- Claim C7 (amended): when the body has a whitespace-http token with
no newline anywhere before the first such token, the stored title is
the text preceding that token; when the body has no such token, the
stored title is the full body with every non-ASCII character removed.
(When a newline precedes the first token, the stored title is only the
text between the last such newline and the token, not the whole
preceding text; see the counterexample.) -/
theorem C7_title_extraction (s : String) :
    (∀ pre suf, firstTokenSplit s.data = some (pre, suf) → '\n' ∉ pre →
      extractTitle s = String.mk pre) ∧
    (firstTokenSplit s.data = none → extractTitle s = stripNonAscii s) := by
  constructor
  · intro pre suf h hnl
    unfold extractTitle
    cases hcs : s.data with
    | nil =>
      rw [hcs] at h
      exact absurd h (by simp [firstTokenSplit])
    | cons c rest =>
      rw [hcs] at h
      unfold firstMatch
      rw [matchAt_of_split (c :: rest) pre suf h hnl []]
      simp
  · intro h
    unfold extractTitle
    cases hcs : s.data with
    | nil => rfl
    | cons c rest =>
      rw [hcs] at h
      rw [firstMatch_none_of_noToken (c :: rest) h]

theorem C7_title_extraction_witness :
    (firstTokenSplit ("Some Title http://x").data =
      some (("Some Title").data, (" http://x").data) ∧
     '\n' ∉ ("Some Title").data ∧
     extractTitle "Some Title http://x" = String.mk ("Some Title").data) ∧
    (firstTokenSplit ("Tïtle with no link").data = none ∧
     extractTitle "Tïtle with no link" = stripNonAscii "Tïtle with no link") :=
  ⟨⟨by decide, by decide,
      (C7_title_extraction "Some Title http://x").1 ("Some Title").data (" http://x").data
        (by decide) (by decide)⟩,
   ⟨by decide, (C7_title_extraction "Tïtle with no link").2 (by decide)⟩⟩

/-- Claim C7 counterexample: for the body consisting of two lines whose
second line ends in the url, the text preceding the first url-prefix
token is both lines, but the stored title is only the second line: the
lazy dot of the pattern does not cross a newline. -/
theorem C7_counterexample_newline_before_token :
    specTitleOf "ab\ncd http://x" = some "ab\ncd" ∧
    extractTitle "ab\ncd http://x" = "cd" ∧
    ("cd" : String) ≠ "ab\ncd" := by
  refine ⟨by decide, by decide, by decide⟩

theorem enrich_ok (c : Collab) (o1 o2 : ObjDict) (h : enrich c o1 = Except.ok o2) :
    o2.id = o1.id ∧ o2.created = o1.created ∧ o2.title = o1.title ∧
    o2.parse_status = o1.parse_status ∧ o2.parse_data = o1.parse_data ∧
    ((o1.parse_status = some true ∧
        ∃ ac, c.find_authors o1.id = Except.ok ac ∧ o2.author_contact = some ac) ∨
     (o1.parse_status ≠ some true ∧ o2.author_contact = o1.author_contact)) := by
  unfold enrich at h
  by_cases hp : o1.parse_status = some true
  · rw [if_pos hp] at h
    cases hfa : c.find_authors o1.id with
    | error e =>
      rw [hfa] at h
      exact absurd h (by simp)
    | ok ac =>
      rw [hfa] at h
      simp only [Except.ok.injEq] at h
      subst h
      exact ⟨rfl, rfl, rfl, rfl, rfl, Or.inl ⟨hp, ac, rfl, rfl⟩⟩
  · rw [if_neg hp] at h
    simp only [Except.ok.injEq] at h
    subst h
    exact ⟨rfl, rfl, rfl, rfl, rfl, Or.inr ⟨hp, rfl⟩⟩

theorem finalObj_ok_cases (c : Collab) (o : ObjDict) (td : Nat) (o2 : ObjDict)
    (h : finalObj c o td = Except.ok o2) :
    ∃ fn sd, c.download_paper o.id td = Except.ok fn ∧
      c.detect_rainbow_from_file fn = Except.ok sd ∧
      o2.id = o.id ∧ o2.created = o.created ∧ o2.title = o.title ∧
      o2.parse_status = some sd.1 ∧ o2.parse_data = some sd.2 ∧
      ((sd.1 = true ∧ ∃ ac, c.find_authors o.id = Except.ok ac ∧
          o2.author_contact = some ac) ∨
       (sd.1 = false ∧ o2.author_contact = o.author_contact)) := by
  unfold finalObj at h
  cases hdl : c.download_paper o.id td with
  | error e =>
    rw [hdl] at h
    exact absurd h (by simp)
  | ok fn =>
    rw [hdl] at h
    simp only at h
    cases hdet : c.detect_rainbow_from_file fn with
    | error e =>
      rw [hdet] at h
      exact absurd h (by simp)
    | ok sd =>
      rw [hdet] at h
      simp only at h
      obtain ⟨hid, hcr, hti, hps, hpd, hrest⟩ := enrich_ok c _ o2 h
      refine ⟨fn, sd, rfl, hdet, hid, hcr, hti, by simpa using hps, by simpa using hpd, ?_⟩
      cases hrest with
      | inl hflag =>
        obtain ⟨hval, ac, hfa, hac⟩ := hflag
        simp only at hval
        exact Or.inl ⟨by simpa using hval, ac, by simpa using hfa, hac⟩
      | inr hclean =>
        obtain ⟨hval, hac⟩ := hclean
        simp only at hval hac
        refine Or.inr ⟨?_, hac⟩
        cases hb : sd.1 with
        | false => rfl
        | true => exact absurd (by rw [hb]) hval

theorem finalObj_indep (c : Collab) (hdl : DlIndep c) (o : ObjDict) (td1 td2 : Nat) :
    finalObj c o td1 = finalObj c o td2 := by
  unfold finalObj
  rw [hdl o.id td1 td2]

theorem analysisOf_indep (c : Collab) (hdl : DlIndep c) (k : String) (td1 td2 : Nat) :
    analysisOf c k td1 = analysisOf c k td2 := by
  unfold analysisOf
  rw [hdl k td1 td2]

theorem analysisOf_of_steps (c : Collab) (k : String) (td : Nat) (fn : String)
    (sd : Bool × ParseData) (h1 : c.download_paper k td = Except.ok fn)
    (h2 : c.detect_rainbow_from_file fn = Except.ok sd) :
    analysisOf c k td = some sd.1 := by
  simp [analysisOf, h1, h2]

theorem process_paper_of_ok (c : Collab) (o : ObjDict) (store : Store) (res : Resources)
    (s1 : Store) (h : pipelineBody c o store res.allocated = Except.ok s1) :
    process_paper c o store res =
      (Except.ok (), s1, ⟨res.allocated + 1, res.released + 1⟩) := by
  unfold process_paper withTempDirectory
  simp only
  rw [h]

theorem process_paper_of_error (c : Collab) (o : ObjDict) (store : Store) (res : Resources)
    (e : String) (h : pipelineBody c o store res.allocated = Except.error e) :
    process_paper c o store res =
      (Except.error e, store, ⟨res.allocated + 1, res.released + 1⟩) := by
  unfold process_paper withTempDirectory
  simp only
  rw [h]

theorem pipelineBody_cases (c : Collab) (o : ObjDict) (store : Store) (td : Nat)
    (s1 : Store) (h : pipelineBody c o store td = Except.ok s1) :
    ∃ o2, finalObj c o td = Except.ok o2 ∧ c.commitFail = none ∧
      s1 = sessionMerge store o2 := by
  rw [pipelineBody_eq] at h
  cases hf : finalObj c o td with
  | error e =>
    rw [hf] at h
    exact absurd h (by simp)
  | ok o2 =>
    rw [hf] at h
    cases hcf : c.commitFail with
    | some e =>
      rw [hcf] at h
      exact absurd h (by simp)
    | none =>
      rw [hcf] at h
      simp only [Except.ok.injEq] at h
      exact ⟨o2, rfl, rfl, h.symm⟩

theorem process_paper_ok (c : Collab) (o : ObjDict) (store : Store) (res : Resources)
    (h : (process_paper c o store res).1 = Except.ok ()) :
    ∃ o2, finalObj c o res.allocated = Except.ok o2 ∧ c.commitFail = none ∧
      process_paper c o store res =
        (Except.ok (), sessionMerge store o2, ⟨res.allocated + 1, res.released + 1⟩) := by
  cases hp : pipelineBody c o store res.allocated with
  | error e =>
    rw [process_paper_of_error c o store res e hp] at h
    exact absurd h (by simp)
  | ok s1 =>
    obtain ⟨o2, hf, hcf, hs1⟩ := pipelineBody_cases c o store res.allocated s1 hp
    exact ⟨o2, hf, hcf, by rw [process_paper_of_ok c o store res s1 hp, hs1]⟩

theorem mergeRecord_stable (old : PaperRecord) (o : ObjDict) :
    mergeRecord (mergeRecord old o) o = mergeRecord old o := by
  unfold mergeRecord
  cases o.parse_status <;> cases o.parse_data <;> cases o.author_contact <;> rfl

theorem newRecord_stable (o : ObjDict) : mergeRecord (newRecord o) o = newRecord o := by
  unfold mergeRecord newRecord
  cases o.parse_status <;> cases o.parse_data <;> cases o.author_contact <;> rfl

theorem sessionMerge_stable (store : Store) (o : ObjDict) :
    sessionMerge (sessionMerge store o) o = sessionMerge store o := by
  funext k
  unfold sessionMerge
  by_cases hk : k = o.id
  · rw [if_pos hk, if_pos hk, if_pos rfl]
    cases store o.id with
    | none => simp [newRecord_stable]
    | some old => simp [mergeRecord_stable]
  · rw [if_neg hk, if_neg hk]

/-- Claim C4: with the external collaborators giving the same results
on each run, a second delivery of the same job converges: it succeeds
again and leaves the store exactly as the first run left it. -/
theorem C4_process_paper_idempotent (c : Collab) (o : ObjDict) (store : Store)
    (res1 res2 : Resources) (hdl : DlIndep c)
    (h : (process_paper c o store res1).1 = Except.ok ()) :
    (process_paper c o ((process_paper c o store res1).2.1) res2).1 = Except.ok () ∧
    (process_paper c o ((process_paper c o store res1).2.1) res2).2.1 =
      (process_paper c o store res1).2.1 := by
  obtain ⟨o2, hf, hcf, hrun1⟩ := process_paper_ok c o store res1 h
  have hf2 : finalObj c o res2.allocated = Except.ok o2 := by
    rw [finalObj_indep c hdl o res2.allocated res1.allocated]
    exact hf
  have hp2 : pipelineBody c o (sessionMerge store o2) res2.allocated =
      Except.ok (sessionMerge (sessionMerge store o2) o2) := by
    rw [pipelineBody_eq, hf2, hcf]
  have hrun2 := process_paper_of_ok c o (sessionMerge store o2) res2 _ hp2
  rw [hrun1]
  rw [show ((Except.ok (), sessionMerge store o2,
      (⟨res1.allocated + 1, res1.released + 1⟩ : Resources)) :
        Except String Unit × Store × Resources).2.1 = sessionMerge store o2 from rfl]
  rw [hrun2]
  exact ⟨rfl, sessionMerge_stable store o2⟩

theorem C4_process_paper_idempotent_witness :
    (process_paper collabW4 objW4 emptyStore ⟨0, 0⟩).1 = Except.ok () ∧
    (process_paper collabW4 objW4
        ((process_paper collabW4 objW4 emptyStore ⟨0, 0⟩).2.1) ⟨7, 7⟩).1 = Except.ok () ∧
    (process_paper collabW4 objW4
        ((process_paper collabW4 objW4 emptyStore ⟨0, 0⟩).2.1) ⟨7, 7⟩).2.1 =
      (process_paper collabW4 objW4 emptyStore ⟨0, 0⟩).2.1 := by
  have hidem := C4_process_paper_idempotent collabW4 objW4 emptyStore ⟨0, 0⟩ ⟨7, 7⟩
    (fun _ _ _ => rfl) (by rfl)
  exact ⟨by rfl, hidem.1, hidem.2⟩

/-- Claim C2 (amended): the final merge of the worker writes
parse_status, parse_data and, when computed, author_contact, but it
also writes id, created and title, all taken from the job payload as it
stood at enqueue time: after a successful run the stored record holds
the payload values of id, created and title. They are therefore
unchanged exactly when the record still carried the enqueue-time values
at merge time; a re-ingestion with different title or created between
enqueue and the merge is overwritten back to the enqueue-time
snapshot. -/
theorem C2_worker_merge_writes_enqueue_snapshot (c : Collab) (o : ObjDict)
    (store : Store) (res : Resources)
    (h : (process_paper c o store res).1 = Except.ok ()) :
    ((process_paper c o store res).2.1 o.id).map
        (fun r => (r.id, r.created, r.title)) = some (o.id, o.created, o.title) := by
  obtain ⟨o2, hf, hcf, hrun⟩ := process_paper_ok c o store res h
  obtain ⟨fn, sd, _, _, hid, hcr, hti, _, _, _⟩ :=
    finalObj_ok_cases c o res.allocated o2 hf
  rw [hrun]
  show ((sessionMerge store o2) o.id).map (fun r => (r.id, r.created, r.title)) =
    some (o.id, o.created, o.title)
  unfold sessionMerge
  rw [if_pos hid.symm, ← hid]
  cases store o2.id with
  | none => simp [newRecord, hid, hcr, hti]
  | some old => simp [mergeRecord, hid, hcr, hti]

theorem C2_worker_merge_writes_enqueue_snapshot_witness :
    (process_paper collabW2 objW2 storeW2 ⟨0, 0⟩).1 = Except.ok () ∧
    ((process_paper collabW2 objW2 storeW2 ⟨0, 0⟩).2.1 objW2.id).map
        (fun r => (r.id, r.created, r.title)) =
      some (objW2.id, objW2.created, objW2.title) :=
  ⟨by rfl, C2_worker_merge_writes_enqueue_snapshot collabW2 objW2 storeW2 ⟨0, 0⟩ (by rfl)⟩

/-- Claim C2 counterexample: the record of paper p holds title B and
created 2 after a re-ingestion, the job payload enqueued earlier holds
title A and created 1; the worker run succeeds and the stored title and
created revert to A and 1: the processing pipeline does alter title and
created when a re-ingestion happened between enqueue and merge. -/
theorem C2_counterexample_title_reverted :
    (storeW2 "p").map (fun r => (r.created, r.title)) = some (2, "B") ∧
    (process_paper collabW2 objW2 storeW2 ⟨0, 0⟩).1 = Except.ok () ∧
    ((process_paper collabW2 objW2 storeW2 ⟨0, 0⟩).2.1 "p").map
        (fun r => (r.created, r.title)) = some (1, "A") ∧
    ((1 : Nat), ("A" : String)) ≠ (2, "B") :=
  ⟨by decide, by rfl, by decide, by decide⟩

/-- Claim C8: a failure of the download, the analysis, the author
lookup, or the commit propagates out of process_paper as that same
error, and the failed run leaves the store untouched: in particular a
lookup failure after a successful flagged analysis persists neither
parse_status nor parse_data. -/
theorem C8_collaborator_failure_propagates (c : Collab) (o : ObjDict) (store : Store)
    (res : Resources) (e : String)
    (h : c.download_paper o.id res.allocated = Except.error e
      ∨ (∃ fn, c.download_paper o.id res.allocated = Except.ok fn ∧
           c.detect_rainbow_from_file fn = Except.error e)
      ∨ (∃ fn sd, c.download_paper o.id res.allocated = Except.ok fn ∧
           c.detect_rainbow_from_file fn = Except.ok sd ∧ sd.1 = true ∧
           c.find_authors o.id = Except.error e)
      ∨ (∃ o2, finalObj c o res.allocated = Except.ok o2 ∧ c.commitFail = some e)) :
    (process_paper c o store res).1 = Except.error e ∧
    (process_paper c o store res).2.1 = store := by
  have hbody : pipelineBody c o store res.allocated = Except.error e := by
    rcases h with hdl | ⟨fn, hdl, hdet⟩ | ⟨fn, sd, hdl, hdet, hflag, hfa⟩ | ⟨o2, hf, hcf⟩
    · unfold pipelineBody
      rw [hdl]
    · unfold pipelineBody
      rw [hdl]
      simp only
      rw [hdet]
    · unfold pipelineBody
      rw [hdl]
      simp only
      rw [hdet]
      simp only
      unfold enrich
      simp [hflag, hfa]
    · rw [pipelineBody_eq, hf, hcf]
  rw [process_paper_of_error c o store res e hbody]
  exact ⟨rfl, rfl⟩

theorem C8_collaborator_failure_propagates_witness :
    (∃ fn sd, collabW8.download_paper objW8.id (0 : Nat) = Except.ok fn ∧
       collabW8.detect_rainbow_from_file fn = Except.ok sd ∧ sd.1 = true ∧
       collabW8.find_authors objW8.id = Except.error "author page unparsable") ∧
    (process_paper collabW8 objW8 storeW2 ⟨0, 0⟩).1 =
      Except.error "author page unparsable" ∧
    (process_paper collabW8 objW8 storeW2 ⟨0, 0⟩).2.1 = storeW2 := by
  have hcase : ∃ fn sd, collabW8.download_paper objW8.id (0 : Nat) = Except.ok fn ∧
      collabW8.detect_rainbow_from_file fn = Except.ok sd ∧ sd.1 = true ∧
      collabW8.find_authors objW8.id = Except.error "author page unparsable" :=
    ⟨"paper.pdf", (true, [4]), rfl, rfl, rfl, rfl⟩
  have happ := C8_collaborator_failure_propagates collabW8 objW8 storeW2 ⟨0, 0⟩
    "author page unparsable" (Or.inr (Or.inr (Or.inl hcase)))
  exact ⟨hcase, happ.1, happ.2⟩

/-- Claim C9: the scoped temporary directory of a run is released on
every exit path: whatever the collaborators do (success, download
error, analysis error, lookup error, or commit error), the run ends
with exactly one more directory created and exactly one more directory
removed. -/
theorem C9_tempdir_always_released (c : Collab) (o : ObjDict) (store : Store)
    (res : Resources) :
    (process_paper c o store res).2.2 =
      ⟨res.allocated + 1, res.released + 1⟩ := by
  cases hp : pipelineBody c o store res.allocated with
  | ok s1 => rw [process_paper_of_ok c o store res s1 hp]
  | error e => rw [process_paper_of_error c o store res e hp]

theorem RecordInv_of_fields (c : Collab) (k : String) (r1 r2 : PaperRecord)
    (h1 : r1.parse_status = r2.parse_status) (h2 : r1.author_contact = r2.author_contact)
    (h : RecordInv c k r2) : RecordInv c k r1 := by
  unfold RecordInv at h ⊢
  rw [h1, h2]
  exact h

theorem StoreInv_sessionMerge_intake (c : Collab) (st : Store) (o : ObjDict)
    (ho : IntakeShaped o) (hinv : StoreInv c st) : StoreInv c (sessionMerge st o) := by
  intro k rec hrec
  obtain ⟨hps, hpd, hac⟩ := ho
  unfold sessionMerge at hrec
  by_cases hk : k = o.id
  · rw [if_pos hk] at hrec
    simp only [Option.some.injEq] at hrec
    cases hold : st o.id with
    | none =>
      rw [hold] at hrec
      subst hrec
      constructor
      · simp [newRecord, hps, hac]
      · intro b hb
        rw [show (newRecord o).parse_status = o.parse_status from rfl, hps] at hb
        exact absurd hb (by simp)
    | some old =>
      rw [hold] at hrec
      subst hrec
      refine RecordInv_of_fields c k _ old ?_ ?_ (hk ▸ hinv o.id old hold)
      · unfold mergeRecord
        rw [hps]
      · unfold mergeRecord
        rw [hac]
  · rw [if_neg hk] at hrec
    exact hinv k rec hrec

theorem parse_tweet_inv (c : Collab) (t : Tweet) (st : Store) (hinv : StoreInv c st) :
    StoreInv c (parse_tweet t st).1 ∧ ∀ o ∈ (parse_tweet t st).2, IntakeShaped o := by
  cases hu : extractUrl t with
  | none =>
    rw [parse_tweet_discards t st hu]
    exact ⟨hinv, fun o ho => absurd ho (by simp)⟩
  | some url =>
    rw [parse_tweet_ingests t st url hu]
    refine ⟨StoreInv_sessionMerge_intake c st _ ⟨rfl, rfl, rfl⟩ hinv, ?_⟩
    intro o ho
    simp only [List.mem_singleton] at ho
    subst ho
    exact ⟨rfl, rfl, rfl⟩

theorem RecordInv_processed (c : Collab) (k : String) (sd : Bool × ParseData)
    (hana : analysisOf c k 0 = some sd.1) (rec : PaperRecord)
    (hst : rec.parse_status = some sd.1)
    (hcon : (sd.1 = true ∧ rec.author_contact.isSome = true) ∨
            (sd.1 = false ∧ rec.author_contact = none)) :
    RecordInv c k rec := by
  constructor
  · cases hcon with
    | inl h => exact iff_of_true h.2 (by rw [hst, h.1])
    | inr h =>
      refine iff_of_false (by rw [h.2]; simp) ?_
      rw [hst, h.1]
      simp
  · intro b hb
    rw [hst] at hb
    simp only [Option.some.injEq] at hb
    rw [← hb]
    exact hana

theorem process_inv (c : Collab) (hdli : DlIndep c) (o : ObjDict) (ho : IntakeShaped o)
    (st : Store) (res : Resources) (hinv : StoreInv c st) :
    StoreInv c (process_paper c o st res).2.1 := by
  cases hr : (process_paper c o st res).1 with
  | error e =>
    cases hp : pipelineBody c o st res.allocated with
    | ok s1 =>
      rw [process_paper_of_ok c o st res s1 hp] at hr
      exact absurd hr (by simp)
    | error e2 =>
      rw [process_paper_of_error c o st res e2 hp]
      exact hinv
  | ok u =>
    cases u
    obtain ⟨o2, hf, hcf, hrun⟩ := process_paper_ok c o st res hr
    obtain ⟨fn, sd, hdl, hdet, hid, hcr, hti, hps, hpd, hcase⟩ :=
      finalObj_ok_cases c o res.allocated o2 hf
    have hana : analysisOf c o.id 0 = some sd.1 := by
      rw [analysisOf_indep c hdli o.id 0 res.allocated]
      exact analysisOf_of_steps c o.id res.allocated fn sd hdl hdet
    rw [hrun]
    show StoreInv c (sessionMerge st o2)
    intro k rec hrec
    unfold sessionMerge at hrec
    by_cases hk : k = o2.id
    · rw [if_pos hk] at hrec
      simp only [Option.some.injEq] at hrec
      have hka : k = o.id := by rw [hk, hid]
      have hana2 : analysisOf c k 0 = some sd.1 := hka ▸ hana
      cases hold : st o2.id with
      | none =>
        rw [hold] at hrec
        subst hrec
        refine RecordInv_processed c k sd hana2 _ (by simpa [newRecord] using hps) ?_
        cases hcase with
        | inl hflag =>
          obtain ⟨hb, ac, hfa, hac2⟩ := hflag
          exact Or.inl ⟨hb, by simp [newRecord, hac2]⟩
        | inr hclean =>
          exact Or.inr ⟨hclean.1, by simp [newRecord, hclean.2, ho.2.2]⟩
      | some old =>
        rw [hold] at hrec
        subst hrec
        refine RecordInv_processed c k sd hana2 _ (by simp [mergeRecord, hps]) ?_
        cases hcase with
        | inl hflag =>
          obtain ⟨hb, ac, hfa, hac2⟩ := hflag
          exact Or.inl ⟨hb, by simp [mergeRecord, hac2]⟩
        | inr hclean =>
          refine Or.inr ⟨hclean.1, ?_⟩
          have hmc : (mergeRecord old o2).author_contact = old.author_contact := by
            unfold mergeRecord
            rw [hclean.2, ho.2.2]
          rw [hmc]
          cases hoc : old.author_contact with
          | none => rfl
          | some a =>
            exfalso
            have hio := hinv o2.id old hold
            have hot : old.parse_status = some true :=
              hio.1.mp (by rw [hoc]; rfl)
            have : analysisOf c o2.id 0 = some true := hio.2 true hot
            rw [hid, hana] at this
            simp only [Option.some.injEq] at this
            rw [hclean.1] at this
            exact Bool.false_ne_true this
    · rw [if_neg hk] at hrec
      exact hinv k rec hrec

theorem step_preserves (c : Collab) (hdli : DlIndep c) (s1 s2 : SysState)
    (hstep : Step c s1 s2) (hinv : SysInv c s1) : SysInv c s2 := by
  match hstep with
  | Step.intake t s =>
    obtain ⟨hstore, hjobs⟩ := parse_tweet_inv c t s.store hinv.1
    refine ⟨hstore, ?_⟩
    intro o ho
    rcases List.mem_append.mp ho with h1 | h2
    · exact hinv.2 o h1
    · exact hjobs o h2
  | Step.process o s hmem =>
    exact ⟨process_inv c hdli o (hinv.2 o hmem) s.store s.res hinv.1, hinv.2⟩

theorem reachable_inv (c : Collab) (hdli : DlIndep c) (s : SysState)
    (h : Reachable c s) : SysInv c s := by
  induction h with
  | refl =>
    refine ⟨?_, ?_⟩
    · intro k rec hk
      exact absurd hk (by simp [initState])
    · intro o ho
      exact absurd ho (by simp [initState])
  | tail h1 h2 ih => exact step_preserves c hdli _ _ h2 ih

/-- Claim C3: with the collaborators fixed (the download depending only
on the paper id), every record of every reachable store has its author
contact present exactly when its parse status is flagged: the worker
attaches contact information exactly on a flagged analysis and never to
a clean or unprocessed record. -/
theorem C3_author_contact_iff_flagged (c : Collab) (hdli : DlIndep c) (s : SysState)
    (hs : Reachable c s) (k : String) (rec : PaperRecord)
    (hrec : s.store k = some rec) :
    rec.author_contact.isSome ↔ rec.parse_status = some true :=
  ((reachable_inv c hdli s hs).1 k rec hrec).1

theorem reachable_stateW3b : Reachable collabW3 stateW3b :=
  Relation.ReflTransGen.tail
    (Relation.ReflTransGen.tail Relation.ReflTransGen.refl
      (Step.intake tweet5 initState))
    (Step.process objW5 stateW3a (by decide))

theorem C3_author_contact_iff_flagged_witness :
    stateW3b.store "172627v1" = some recW3 ∧
    (recW3.author_contact.isSome ↔ recW3.parse_status = some true) :=
  ⟨by decide,
   C3_author_contact_iff_flagged collabW3 (fun _ _ _ => rfl) stateW3b
     reachable_stateW3b "172627v1" recW3 (by decide)⟩

end Jetfighter
